import Mathlib

/-
Verification of music_usher.py (kwalter94/music-usher).

Shallow embedding conventions:
  * Strings are `List Char` (`Str`), so that path and tag manipulations
    can be reasoned about by structural induction.  Concrete literals are
    written `"...".data`.
  * The mutagen `EasyID3` tag reader is the external collaborator; it is
    modelled as a function `Str → Option (List (Str × TagValue))`.
    `none` models the `ID3NoHeaderError` case caught in `Track.__init__`.
  * The filesystem is a state `FS` (existing directories, plus files as a
    path → content-id association list); `shutil.copy` / `shutil.move` /
    `os.makedirs` become explicit state transformers, and fallible
    operations return `Option`.
  * The global flags `DRY_RUN` / `MOVE_EXPORT` become a `Config` record
    threaded through the export functions.
  * `os.walk` output is an input: a list of `(parent_dir, files)` pairs
    (the `dirs` component of each triple is unused by the program).
-/

/-- Strings as lists of characters. -/
abbrev Str : Type := List Char

/-- First-match association-list lookup, modelling Python `dict.get` /
`key in dict` (Python dict keys are unique; lists built here keep that). -/
def alookup {α : Type} (k : Str) : List (Str × α) → Option α
  | [] => none
  | (k', v) :: rest => if k' = k then some v else alookup k rest

/-- `dict[k] = v`: replace the entry for `k` if present, else append. -/
def dictSet {α : Type} (k : Str) (v : α) : List (Str × α) → List (Str × α)
  | [] => [(k, v)]
  | (k', v') :: rest => if k' = k then (k, v) :: rest else (k', v') :: dictSet k v rest

/-- Remove every entry with key `k` (used to model overwriting a file). -/
def removeKey {α : Type} (k : Str) : List (Str × α) → List (Str × α)
  | [] => []
  | (k', v) :: rest => if k' = k then removeKey k rest else (k', v) :: removeKey k rest

/-- Model of `os.path.basename` for POSIX paths: the part after the last slash. -/
def basename (p : Str) : Str :=
  (p.reverse.takeWhile (fun c => decide (c ≠ '/'))).reverse

/-- Model of `os.path.splitext`: split off the extension at the last dot of
the last path component, the extension keeping its leading dot; a component
whose only dots are leading (like `.bashrc`) has no extension. -/
def splitext (p : Str) : Str × Str :=
  let r := p.reverse
  let pre := r.takeWhile (fun c => decide (c ≠ '.') && decide (c ≠ '/'))
  let rest := r.dropWhile (fun c => decide (c ≠ '.') && decide (c ≠ '/'))
  match rest with
  | '.' :: rest2 =>
    if (rest2.takeWhile (fun c => decide (c ≠ '/'))).any (fun c => decide (c ≠ '.'))
    then (rest2.reverse, '.' :: pre.reverse)
    else (p, [])
  | _ => (p, [])

/-- Model of `os.path.join` for two POSIX path segments. -/
def pathJoin (a b : Str) : Str :=
  match b with
  | '/' :: _ => b
  | _ =>
    if a = [] then b
    else if a.getLast? = some '/' then a ++ b
    else a ++ '/' :: b

/-- The tail test of `MEDIA_FILES_REGEX = re.compile(r'.*\.(mp3|ogg)$', re.IGNORECASE)`:
does the string begin with `\.(mp3|ogg)` followed by the end of input
(`$` also matches just before a single trailing newline)? -/
def tailMediaCheck : Str → Bool
  | '.' :: a :: b :: c :: rest =>
    decide (((a.toLower = 'm' ∧ b.toLower = 'p' ∧ c.toLower = '3')
             ∨ (a.toLower = 'o' ∧ b.toLower = 'g' ∧ c.toLower = 'g'))
            ∧ (rest = [] ∨ rest = ['\n']))
  | _ => false

/-- Model of `MEDIA_FILES_REGEX.match(f)`: `.*` (any characters except
newline) then `\.(mp3|ogg)$`, case-insensitively. -/
def mediaMatch : Str → Bool
  | [] => false
  | c :: rest => tailMediaCheck (c :: rest) || (decide (c ≠ '\n') && mediaMatch rest)

/-- Model of `re.sub(r'/\d+$', '', s)` from `Track.get_track_number`:
drop the leftmost occurrence of a slash followed by digits that reaches the
end of the string (`$` also matching just before one trailing newline). -/
def reSubSlashDigits : Str → Str
  | [] => []
  | c :: rest =>
    if c = '/' ∧ rest.takeWhile Char.isDigit ≠ []
        ∧ (rest.dropWhile Char.isDigit = [] ∨ rest.dropWhile Char.isDigit = ['\n'])
    then rest.dropWhile Char.isDigit
    else c :: reSubSlashDigits rest

/-- A stored tag value: EasyID3 normally stores a list of strings, but the
no-header fallback in `Track.__init__` stores a plain string, and
`Track._get_metadata` distinguishes the two with `isinstance`. -/
inductive TagValue : Type
  | single (s : Str)
  | multi (l : List Str)
deriving DecidableEq

/-- Model of `' & '.join(l)`. -/
def joinAmp : List Str → Str
  | [] => []
  | [s] => s
  | s :: rest => s ++ (" & ".data) ++ joinAmp rest

/-- Python truthiness-based `or` on an optional string: `x or d` falls back
to `d` when `x` is `None` or the empty string. -/
def pyOr (o : Option Str) (d : Str) : Str :=
  match o with
  | none => d
  | some s => if s = [] then d else s

/-- Python's `str.format` rendering of an optional string: `None` prints as
the four characters `None`. -/
def pyStrOpt : Option Str → Str
  | none => "None".data
  | some s => s

/-- Model of the `Track` class: source path, `splitext` extension, and the
metadata mapping loaded once at construction. -/
structure Track where
  path : Str
  type : Str
  metadata : List (Str × TagValue)
deriving DecidableEq

/-- Model of `Track.__init__`: `reader` is the `EasyID3` collaborator,
`reader p = none` modelling `ID3NoHeaderError`, in which case the metadata
falls back to a title derived from the extension-stripped filename. -/
def mkTrack (reader : Str → Option (List (Str × TagValue))) (path : Str) : Track :=
  let se := splitext path
  { path := path
    type := se.2
    metadata :=
      match reader path with
      | some m => m
      | none => [(("title".data), TagValue.single (basename se.1))] }

/-- Model of `Track._get_metadata`. -/
def Track._get_metadata (t : Track) (name : Str) : Option Str :=
  match alookup name t.metadata with
  | none => none
  | some (TagValue.single s) => some s
  | some (TagValue.multi l) => some (joinAmp l)

/-- Model of `Track.get_type`: `self.type or 'mp3'`. -/
def Track.get_type (t : Track) : Str :=
  if t.type = [] then "mp3".data else t.type

/-- Model of `Track.get_album`. -/
def Track.get_album (t : Track) : Str :=
  pyOr (Track._get_metadata t ("album".data)) ("Unknown Album".data)

/-- Model of `Track.get_artist`. -/
def Track.get_artist (t : Track) : Str :=
  pyOr (Track._get_metadata t ("albumartist".data))
    (pyOr (Track._get_metadata t ("artist".data)) ("Unknown Artist".data))

/-- Model of `Track.get_title` (may be `None`). -/
def Track.get_title (t : Track) : Option Str :=
  Track._get_metadata t ("title".data)

/-- Model of `Track.get_track_number`. -/
def Track.get_track_number (t : Track) : Str :=
  match Track._get_metadata t ("tracknumber".data) with
  | none => []
  | some s => if s = [] then [] else reSubSlashDigits s

/-- Model of the `Album` class: artist (denormalized), name, and the track
set (Python uses a `set` of distinct `Track` objects; insertion order is
kept here as a list — export order over a set is unspecified anyway). -/
structure Album where
  artist : Str
  name : Str
  tracks : List Track
deriving DecidableEq

/-- Model of `Album.add`: the artist-mismatch check only emits a log
warning, so the insertion is unconditional. -/
def Album.add (a : Album) (t : Track) : Album :=
  { a with tracks := a.tracks ++ [t] }

/-- Model of the `Discography` class. -/
structure Discography where
  artist : Str
  albums : List (Str × Album)
deriving DecidableEq

/-- Model of `Discography.get_album`: create-and-insert when absent and
`create` is set, then `dict.get`. -/
def Discography.get_album (d : Discography) (album : Str) (create : Bool) :
    Discography × Option Album :=
  let d' :=
    if alookup album d.albums = none ∧ create = true
    then { d with albums := d.albums ++ [(album, ⟨d.artist, album, []⟩)] }
    else d
  (d', alookup album d'.albums)

/-- Model of the `Library` class. -/
structure Library where
  path : Str
  discographies : List (Str × Discography)
deriving DecidableEq

/-- Model of `Library.__init__` with `autoload=False` (`load` is applied
explicitly below, as `autoload=True` does). -/
def Library.init (p : Str) : Library :=
  { path := p, discographies := [] }

/-- Model of `Library.get_discography`. -/
def Library.get_discography (lib : Library) (artist : Str) (create : Bool) :
    Library × Option Discography :=
  let lib' :=
    if alookup artist lib.discographies = none ∧ create = true
    then { lib with discographies := lib.discographies ++ [(artist, ⟨artist, []⟩)] }
    else lib
  (lib', alookup artist lib'.discographies)

/-- The body of the per-file loop in `Library.load`: build the track, fetch
or create its discography and album (`create=True` at both levels, so the
`None` results cannot occur — Python relies on this; the `getD` defaults
below are never used), add the track, and — since the Python code mutates
the shared objects in place — write the updated album and discography back
into their owners. -/
def routeTrack (lib : Library) (t : Track) : Library :=
  let artist := Track.get_artist t
  let albumName := Track.get_album t
  let r1 := Library.get_discography lib artist true
  let lib1 := r1.1
  let d := r1.2.getD ⟨artist, []⟩
  let r2 := Discography.get_album d albumName true
  let d1 := r2.1
  let a := r2.2.getD ⟨artist, albumName, []⟩
  let a1 := Album.add a t
  let d2 := { d1 with albums := dictSet albumName a1 d1.albums }
  { lib1 with discographies := dictSet artist d2 lib1.discographies }

/-- The inner loop of `Library.load` over the media files of one directory. -/
def loadDir (reader : Str → Option (List (Str × TagValue))) (lib : Library)
    (parent : Str) : List Str → Library
  | [] => lib
  | f :: rest => loadDir reader (routeTrack lib (mkTrack reader (pathJoin parent f))) parent rest

/-- Model of `Library.load`: `walk` is the `os.walk(self.path)` output as
`(parent_dir, files)` pairs; each directory's files are filtered through
`MEDIA_FILES_REGEX` and routed. -/
def Library.load (reader : Str → Option (List (Str × TagValue))) (lib : Library) :
    List (Str × List Str) → Library
  | [] => lib
  | (parent, files) :: rest =>
    Library.load reader (loadDir reader lib parent (files.filter mediaMatch)) rest

/-- Every track held anywhere in the library. -/
def allTracks (lib : Library) : List Track :=
  lib.discographies.flatMap (fun p => p.2.albums.flatMap (fun q => q.2.tracks))

/-- The process-wide flags `DRY_RUN` and `MOVE_EXPORT`. -/
structure Config where
  dryRun : Bool
  moveExport : Bool

/-- Filesystem state: existing directories, and files as an association
from path to an abstract content identifier. -/
structure FS where
  dirs : List Str
  files : List (Str × Nat)
deriving DecidableEq

/-- Model of `os.path.isdir`. -/
def isdir (fs : FS) (p : Str) : Bool :=
  decide (p ∈ fs.dirs)

/-- The chain of directories `os.makedirs(p)` creates: each prefix of `p`
ending at a slash boundary, plus `p` itself. -/
def dirChainGo (acc : Str) : Str → List Str
  | [] => [acc.reverse]
  | c :: rest =>
    if c = '/' then
      (if acc = [] then [] else [acc.reverse]) ++ dirChainGo (c :: acc) rest
    else dirChainGo (c :: acc) rest

/-- Model of `os.makedirs`. -/
def mkdirs (fs : FS) (p : Str) : FS :=
  { fs with dirs := dirChainGo [] p ++ fs.dirs }

/-- Model of `Track.export`: compute the destination filename
(`'{0}. {1}.{2}'.format(track_no, track_title, self.get_type())` when the
track number is non-empty, else `'{0}.{1}'`), then copy or move the source
file there (no existence check on the destination: an existing file is
overwritten), returning the destination path.  `none` models the exception
`shutil` raises when the source file is missing. -/
def Track.export' (cfg : Config) (fs : FS) (t : Track) (path : Str) : Option (FS × Str) :=
  let track_no := Track.get_track_number t
  let track_title := Track.get_title t
  let filename :=
    if track_no ≠ []
    then track_no ++ (". ".data) ++ pyStrOpt track_title ++ (".".data) ++ Track.get_type t
    else pyStrOpt track_title ++ (".".data) ++ Track.get_type t
  let export_path := pathJoin path filename
  if cfg.dryRun = true then some (fs, export_path)
  else if cfg.moveExport = true then
    match alookup t.path fs.files with
    | none => none
    | some c =>
      some ({ fs with files := (export_path, c) :: removeKey export_path (removeKey t.path fs.files) },
            export_path)
  else
    match alookup t.path fs.files with
    | none => none
    | some c =>
      some ({ fs with files := (export_path, c) :: removeKey export_path fs.files }, export_path)

/-- The track loop of `Album.export`, collecting each returned path. -/
def exportTracks (cfg : Config) (path : Str) : List Track → FS → Option (FS × List Str)
  | [], fs => some (fs, [])
  | t :: ts, fs =>
    match Track.export' cfg fs t path with
    | none => none
    | some r =>
      match exportTracks cfg path ts r.1 with
      | none => none
      | some r2 => some (r2.1, r.2 :: r2.2)

/-- Model of `Album.export`. -/
def Album.export' (cfg : Config) (fs : FS) (a : Album) (path : Str) : Option (FS × List Str) :=
  let export_path := pathJoin path a.name
  let fs1 :=
    if isdir fs export_path = true then fs
    else if cfg.dryRun = true then fs
    else mkdirs fs export_path
  exportTracks cfg export_path a.tracks fs1

/-- The album loop of `Discography.export`. -/
def exportAlbums (cfg : Config) (path : Str) : List (Str × Album) → FS → Option (FS × List Str)
  | [], fs => some (fs, [])
  | e :: rest, fs =>
    match Album.export' cfg fs e.2 path with
    | none => none
    | some r =>
      match exportAlbums cfg path rest r.1 with
      | none => none
      | some r2 => some (r2.1, r.2 ++ r2.2)

/-- Model of `Discography.export`. -/
def Discography.export' (cfg : Config) (fs : FS) (d : Discography) (path : Str) :
    Option (FS × List Str) :=
  let export_path := pathJoin path d.artist
  let fs1 :=
    if isdir fs export_path = true then fs
    else if cfg.dryRun = true then fs
    else mkdirs fs export_path
  exportAlbums cfg export_path d.albums fs1

/-- The discography loop of `Library.export`. -/
def exportDiscogs (cfg : Config) (path : Str) : List (Str × Discography) → FS → Option (FS × List Str)
  | [], fs => some (fs, [])
  | e :: rest, fs =>
    match Discography.export' cfg fs e.2 path with
    | none => none
    | some r =>
      match exportDiscogs cfg path rest r.1 with
      | none => none
      | some r2 => some (r2.1, r.2 ++ r2.2)

/-- Model of `Library.export`. -/
def Library.export' (cfg : Config) (fs : FS) (lib : Library) (path : Str) :
    Option (FS × List Str) :=
  let fs1 :=
    if isdir fs path = true then fs
    else if cfg.dryRun = true then fs
    else mkdirs fs path
  exportDiscogs cfg path lib.discographies fs1

/-- An element not satisfying the predicate survives `dropWhile`. -/
theorem mem_dropWhile_of_mem {α : Type} {p : α → Bool} {a : α} :
    ∀ {l : List α}, a ∈ l → p a = false → a ∈ l.dropWhile p := by
  intro l
  induction l with
  | nil => intro h; exact absurd h (List.not_mem_nil a)
  | cons b rest ih =>
    intro hmem hpa
    by_cases hb : p b = true
    · rw [List.dropWhile_cons_of_pos hb]
      rcases List.mem_cons.mp hmem with h | h
      · rw [h] at hpa; rw [hpa] at hb; exact absurd hb (by simp)
      · exact ih h hpa
    · rw [List.dropWhile_cons_of_neg hb]
      exact hmem

/-- `re.sub(r'/\d+$', '', N ++ "/" ++ M)` removes exactly the `"/" ++ M`
suffix when `M` is a nonempty string of digits. -/
theorem reSub_strip (M : Str) (hM : M ≠ []) (hdig : ∀ c ∈ M, c.isDigit = true) :
    ∀ N : Str, reSubSlashDigits (N ++ '/' :: M) = N := by
  have hdrop : M.dropWhile Char.isDigit = [] := List.dropWhile_eq_nil_iff.mpr hdig
  intro N
  induction N with
  | nil =>
    show reSubSlashDigits ('/' :: M) = []
    have htw : M.takeWhile Char.isDigit ≠ [] := by
      rw [List.takeWhile_eq_self_iff.mpr hdig]; exact hM
    rw [reSubSlashDigits, if_pos ⟨rfl, htw, Or.inl hdrop⟩]
    exact hdrop
  | cons c N ih =>
    show reSubSlashDigits (c :: (N ++ '/' :: M)) = c :: N
    rw [reSubSlashDigits, if_neg, ih]
    rintro ⟨-, -, hd⟩
    have hsl : '/' ∈ (N ++ '/' :: M).dropWhile Char.isDigit :=
      mem_dropWhile_of_mem (by simp) (by decide)
    rcases hd with h | h
    · rw [h] at hsl; exact absurd hsl (List.not_mem_nil _)
    · rw [h] at hsl
      rcases List.mem_singleton.mp hsl with h'
      exact absurd h' (by decide)

/-- C4: for a `tracknumber` tag of the form `N/M` (with `M` a nonempty run
of digits), `get_track_number` returns exactly `N`; with no `tracknumber`
tag it returns the empty string. -/
theorem track_number_strips_total :
    (∀ (t : Track) (N M : Str),
      Track._get_metadata t ("tracknumber".data) = some (N ++ '/' :: M) →
      M ≠ [] → (∀ c ∈ M, c.isDigit = true) →
      Track.get_track_number t = N)
    ∧ (∀ t : Track, Track._get_metadata t ("tracknumber".data) = none →
      Track.get_track_number t = []) := by
  constructor
  · intro t N M h hM hdig
    simp only [Track.get_track_number, h]
    rw [if_neg (by cases N <;> simp), reSub_strip M hM hdig N]
  · intro t h
    simp only [Track.get_track_number, h]

/-- Witness for C4 at a concrete track with `tracknumber = "3/12"` and one
with no tag at all. -/
theorem track_number_strips_total_check :
    Track.get_track_number
        ⟨("/m/x.mp3".data), (".mp3".data),
         [(("tracknumber".data), TagValue.single ("3/12".data))]⟩ = ("3".data)
    ∧ Track.get_track_number (mkTrack (fun _ => none) ("/m/y.mp3".data)) = [] :=
  ⟨track_number_strips_total.1 _ ("3".data) ("12".data) (by decide) (by decide) (by decide),
   track_number_strips_total.2 _ (by decide)⟩

/-- C3: the claim says `get_type` returns the extension *without* the
leading dot; but `os.path.splitext` keeps the dot, so for `/src/song1.mp3`
the code returns `".mp3"`, not `"mp3"` (the `or 'mp3'` fallback for an
extensionless file does hold, dotless — the code is inconsistent with its
own docstring example `(eg mp3)`). -/
theorem get_type_keeps_dot :
    Track.get_type (mkTrack (fun _ => none) ("/src/song1.mp3".data)) = (".mp3".data)
    ∧ ¬ Track.get_type (mkTrack (fun _ => none) ("/src/song1.mp3".data)) = ("mp3".data)
    ∧ Track.get_type (mkTrack (fun _ => none) ("/src/song1".data)) = ("mp3".data) := by
  decide

/-- C5: `get_artist` precedence — a (truthy) `albumartist` wins, else a
(truthy) `artist`, else `"Unknown Artist"`; a multi-valued tag `[X, Y]`
resolves to the single string `X & Y`. -/
theorem artist_resolution_spec :
    (∀ (t : Track) (s : Str),
      Track._get_metadata t ("albumartist".data) = some s → s ≠ [] →
      Track.get_artist t = s)
    ∧ (∀ (t : Track) (s : Str),
      Track._get_metadata t ("albumartist".data) = none →
      Track._get_metadata t ("artist".data) = some s → s ≠ [] →
      Track.get_artist t = s)
    ∧ (∀ t : Track,
      Track._get_metadata t ("albumartist".data) = none →
      Track._get_metadata t ("artist".data) = none →
      Track.get_artist t = ("Unknown Artist".data))
    ∧ (∀ (t : Track) (x y : Str),
      alookup ("albumartist".data) t.metadata = some (TagValue.multi [x, y]) →
      Track.get_artist t = x ++ (" & ".data) ++ y) := by
  refine ⟨?_, ?_, ?_, ?_⟩
  · intro t s h hs
    simp [Track.get_artist, pyOr, h, hs]
  · intro t s h1 h2 hs
    simp [Track.get_artist, pyOr, h1, h2, hs]
  · intro t h1 h2
    simp [Track.get_artist, pyOr, h1, h2]
  · intro t x y h
    have hm : Track._get_metadata t ("albumartist".data) = some (x ++ (" & ".data) ++ y) := by
      simp [Track._get_metadata, h, joinAmp]
    have hne : ¬ x ++ (" & ".data) ++ y = [] := by
      have hd : (" & ".data) = ' ' :: '&' :: ' ' :: [] := rfl
      rw [hd]; cases x <;> simp
    simp [Track.get_artist, pyOr, hm, hne]

/-- Witness for C5 at concrete tracks exercising all four branches. -/
theorem artist_resolution_spec_check :
    Track.get_artist ⟨("/a".data), [], [(("albumartist".data), TagValue.single ("X".data))]⟩ = ("X".data)
    ∧ Track.get_artist ⟨("/a".data), [], [(("artist".data), TagValue.single ("Y".data))]⟩ = ("Y".data)
    ∧ Track.get_artist ⟨("/a".data), [], []⟩ = ("Unknown Artist".data)
    ∧ Track.get_artist ⟨("/a".data), [], [(("albumartist".data), TagValue.multi [("X".data), ("Y".data)])]⟩
        = ("X".data) ++ (" & ".data) ++ ("Y".data) :=
  ⟨artist_resolution_spec.1 _ _ (by decide) (by decide),
   artist_resolution_spec.2.1 _ _ (by decide) (by decide) (by decide),
   artist_resolution_spec.2.2.1 _ (by decide) (by decide),
   artist_resolution_spec.2.2.2 _ _ _ (by decide)⟩

/-- C9: a tag present with the empty string as value behaves exactly like
an absent tag: `get_artist`, `get_album` and `get_track_number` all fall
through to their absent-tag results. -/
theorem empty_tag_as_absent :
    (∀ t : Track,
      alookup ("albumartist".data) t.metadata = some (TagValue.single []) →
      alookup ("artist".data) t.metadata = some (TagValue.single []) →
      Track.get_artist t = ("Unknown Artist".data))
    ∧ (∀ t : Track,
      alookup ("album".data) t.metadata = some (TagValue.single []) →
      Track.get_album t = ("Unknown Album".data))
    ∧ (∀ t : Track,
      alookup ("tracknumber".data) t.metadata = some (TagValue.single []) →
      Track.get_track_number t = []) := by
  refine ⟨?_, ?_, ?_⟩
  · intro t h1 h2
    simp [Track.get_artist, Track._get_metadata, pyOr, h1, h2]
  · intro t h
    simp [Track.get_album, Track._get_metadata, pyOr, h]
  · intro t h
    simp [Track.get_track_number, Track._get_metadata, h]

/-- Witness for C9 at a track whose three tags are all present but empty. -/
theorem empty_tag_as_absent_check :
    Track.get_artist ⟨("/e".data), [],
      [(("albumartist".data), TagValue.single []), (("artist".data), TagValue.single []),
       (("album".data), TagValue.single []), (("tracknumber".data), TagValue.single [])]⟩
      = ("Unknown Artist".data)
    ∧ Track.get_album ⟨("/e".data), [],
      [(("albumartist".data), TagValue.single []), (("artist".data), TagValue.single []),
       (("album".data), TagValue.single []), (("tracknumber".data), TagValue.single [])]⟩
      = ("Unknown Album".data)
    ∧ Track.get_track_number ⟨("/e".data), [],
      [(("albumartist".data), TagValue.single []), (("artist".data), TagValue.single []),
       (("album".data), TagValue.single []), (("tracknumber".data), TagValue.single [])]⟩
      = [] :=
  ⟨empty_tag_as_absent.1 _ (by decide) (by decide),
   empty_tag_as_absent.2.1 _ (by decide),
   empty_tag_as_absent.2.2 _ (by decide)⟩

/-- Lookup skips a block of entries it finds nothing in. -/
theorem alookup_append_of_none {α : Type} (k : Str) (m l : List (Str × α))
    (h : alookup k m = none) : alookup k (m ++ l) = alookup k l := by
  induction m with
  | nil => rfl
  | cons e rest ih =>
    obtain ⟨k', v⟩ := e
    by_cases hk : k' = k
    · rw [alookup, if_pos hk] at h; exact absurd h (by simp)
    · rw [alookup, if_neg hk] at h
      rw [List.cons_append, alookup, if_neg hk]
      exact ih h

/-- A successful lookup exhibits a member entry. -/
theorem alookup_mem {α : Type} {k : Str} {v : α} :
    ∀ {m : List (Str × α)}, alookup k m = some v → (k, v) ∈ m := by
  intro m
  induction m with
  | nil => intro h; exact absurd h (by simp [alookup])
  | cons e rest ih =>
    obtain ⟨k', v'⟩ := e
    intro h
    by_cases hk : k' = k
    · rw [alookup, if_pos hk] at h
      rw [← hk, Option.some_inj.mp h]
      exact List.mem_cons_self _ _
    · rw [alookup, if_neg hk] at h
      exact List.mem_cons_of_mem _ (ih h)

/-- The entry written by `dictSet` is a member of the result. -/
theorem self_mem_dictSet {α : Type} (k : Str) (v : α) :
    ∀ m : List (Str × α), (k, v) ∈ dictSet k v m := by
  intro m
  induction m with
  | nil => exact List.mem_cons_self _ _
  | cons e rest ih =>
    rw [dictSet]
    by_cases hk : e.1 = k
    · rw [if_pos hk]; exact List.mem_cons_self _ _
    · rw [if_neg hk]; exact List.mem_cons_of_mem _ ih

/-- Every entry of `dictSet k v m` is the written entry or an old one. -/
theorem mem_dictSet {α : Type} {e : Str × α} {k : Str} {v : α} :
    ∀ {m : List (Str × α)}, e ∈ dictSet k v m → e = (k, v) ∨ e ∈ m := by
  intro m
  induction m with
  | nil => intro h; simpa [dictSet] using h
  | cons e' rest ih =>
    intro h
    rw [dictSet] at h
    by_cases hk : e'.1 = k
    · rw [if_pos hk] at h
      rcases List.mem_cons.mp h with h | h
      · exact Or.inl h
      · exact Or.inr (List.mem_cons_of_mem _ h)
    · rw [if_neg hk] at h
      rcases List.mem_cons.mp h with h | h
      · exact Or.inr (h ▸ List.mem_cons_self _ _)
      · rcases ih h with h | h
        · exact Or.inl h
        · exact Or.inr (List.mem_cons_of_mem _ h)

/-- `get_discography` with `create=True` always finds something, and the
pair it returns is exactly the library state paired with a lookup into it. -/
theorem get_discography_create_none {lib : Library} {artist : Str}
    (h : alookup artist lib.discographies = none) :
    Library.get_discography lib artist true
      = ({ lib with discographies := lib.discographies ++ [(artist, ⟨artist, []⟩)] },
         some ⟨artist, []⟩) := by
  have h2 : alookup artist (lib.discographies ++ [(artist, (⟨artist, []⟩ : Discography))])
      = some ⟨artist, []⟩ := by
    rw [alookup_append_of_none _ _ _ h, alookup, if_pos rfl]
  simp [Library.get_discography, h, h2]

/-- `get_discography` on a present key returns the stored discography and
leaves the library untouched. -/
theorem get_discography_create_some {lib : Library} {artist : Str} {d : Discography}
    (h : alookup artist lib.discographies = some d) (c : Bool) :
    Library.get_discography lib artist c = (lib, some d) := by
  simp only [Library.get_discography, h]
  rw [if_neg (by simp), h]

/-- `get_album` with `create=True` on an absent key creates the album. -/
theorem get_album_create_none {d : Discography} {album : Str}
    (h : alookup album d.albums = none) :
    Discography.get_album d album true
      = ({ d with albums := d.albums ++ [(album, ⟨d.artist, album, []⟩)] },
         some ⟨d.artist, album, []⟩) := by
  have h2 : alookup album (d.albums ++ [(album, (⟨d.artist, album, []⟩ : Album))])
      = some ⟨d.artist, album, []⟩ := by
    rw [alookup_append_of_none _ _ _ h, alookup, if_pos rfl]
  simp [Discography.get_album, h, h2]

/-- `get_album` on a present key returns the stored album unchanged. -/
theorem get_album_create_some {d : Discography} {album : Str} {a : Album}
    (h : alookup album d.albums = some a) (c : Bool) :
    Discography.get_album d album c = (d, some a) := by
  simp only [Discography.get_album, h]
  rw [if_neg (by simp), h]

/-- C10: the lookup-or-create accessors are idempotent and their pure
variants are side-effect free: a second `create=True` call returns the very
same pair (same mapping, same object); `create=True` always yields an
object; `create=False` never changes the mapping and reports an absent key
as `None`. -/
theorem lookup_or_create_idempotent :
    (∀ (lib : Library) (artist : Str),
      Library.get_discography (Library.get_discography lib artist true).1 artist true
        = Library.get_discography lib artist true)
    ∧ (∀ (lib : Library) (artist : Str),
      ∃ d, (Library.get_discography lib artist true).2 = some d)
    ∧ (∀ (lib : Library) (artist : Str),
      (Library.get_discography lib artist false).1 = lib)
    ∧ (∀ (lib : Library) (artist : Str),
      alookup artist lib.discographies = none →
      (Library.get_discography lib artist false).2 = none)
    ∧ (∀ (d : Discography) (album : Str),
      Discography.get_album (Discography.get_album d album true).1 album true
        = Discography.get_album d album true)
    ∧ (∀ (d : Discography) (album : Str),
      ∃ a, (Discography.get_album d album true).2 = some a)
    ∧ (∀ (d : Discography) (album : Str),
      (Discography.get_album d album false).1 = d)
    ∧ (∀ (d : Discography) (album : Str),
      alookup album d.albums = none →
      (Discography.get_album d album false).2 = none) := by
  refine ⟨?_, ?_, ?_, ?_, ?_, ?_, ?_, ?_⟩
  · intro lib artist
    by_cases h : alookup artist lib.discographies = none
    · rw [get_discography_create_none h]
      exact get_discography_create_some
        (by rw [alookup_append_of_none _ _ _ h, alookup, if_pos rfl]) true
    · obtain ⟨d, hd⟩ := Option.ne_none_iff_exists'.mp h
      rw [get_discography_create_some hd true]
      exact get_discography_create_some hd true
  · intro lib artist
    by_cases h : alookup artist lib.discographies = none
    · exact ⟨_, by rw [get_discography_create_none h]⟩
    · obtain ⟨d, hd⟩ := Option.ne_none_iff_exists'.mp h
      exact ⟨d, by rw [get_discography_create_some hd true]⟩
  · intro lib artist
    simp [Library.get_discography]
  · intro lib artist h
    simp [Library.get_discography, h]
  · intro d album
    by_cases h : alookup album d.albums = none
    · rw [get_album_create_none h]
      exact get_album_create_some
        (by rw [alookup_append_of_none _ _ _ h, alookup, if_pos rfl]) true
    · obtain ⟨a, ha⟩ := Option.ne_none_iff_exists'.mp h
      rw [get_album_create_some ha true]
      exact get_album_create_some ha true
  · intro d album
    by_cases h : alookup album d.albums = none
    · exact ⟨_, by rw [get_album_create_none h]⟩
    · obtain ⟨a, ha⟩ := Option.ne_none_iff_exists'.mp h
      exact ⟨a, by rw [get_album_create_some ha true]⟩
  · intro d album
    simp [Discography.get_album]
  · intro d album h
    simp [Discography.get_album, h]

/-- Witness for C10: the two implication components applied at an empty
library and an empty discography. -/
theorem lookup_or_create_idempotent_check :
    (Library.get_discography (Library.init ("/src".data)) ("A".data) false).2 = none
    ∧ (Discography.get_album ⟨("A".data), []⟩ ("B".data) false).2 = none :=
  ⟨lookup_or_create_idempotent.2.2.2.1 _ _ (by decide),
   lookup_or_create_idempotent.2.2.2.2.2.2.2 _ _ (by decide)⟩

/-- Membership in `allTracks`, unfolded. -/
theorem mem_allTracks {t : Track} {lib : Library} :
    t ∈ allTracks lib ↔ ∃ p ∈ lib.discographies, ∃ q ∈ p.2.albums, t ∈ q.2.tracks := by
  constructor
  · intro h
    rcases List.mem_flatMap.mp h with ⟨p, hp, h2⟩
    rcases List.mem_flatMap.mp h2 with ⟨q, hq, ht⟩
    exact ⟨p, hp, q, hq, ht⟩
  · rintro ⟨p, hp, q, hq, ht⟩
    exact List.mem_flatMap.mpr ⟨p, hp, List.mem_flatMap.mpr ⟨q, hq, ht⟩⟩

/-- Routing one track adds that track and disturbs nothing else: any track
found after `routeTrack` was already in the library or is the routed one. -/
theorem mem_allTracks_route {t' t : Track} {lib : Library} :
    t' ∈ allTracks (routeTrack lib t) → t' ∈ allTracks lib ∨ t' = t := by
  intro h
  rcases hd : alookup (Track.get_artist t) lib.discographies with _ | d
  · simp only [routeTrack, get_discography_create_none hd, Option.getD_some] at h
    rw [get_album_create_none (show alookup (Track.get_album t)
      (Discography.mk (Track.get_artist t) []).albums = none from rfl)] at h
    simp only [Option.getD_some] at h
    rcases mem_allTracks.mp h with ⟨p, hp, q, hq, ht⟩
    rcases mem_dictSet hp with rfl | hp'
    · rcases mem_dictSet hq with rfl | hq'
      · rcases List.mem_append.mp ht with h0 | h1
        · exact absurd h0 (List.not_mem_nil _)
        · exact Or.inr (List.mem_singleton.mp h1)
      · simp only [List.nil_append, List.mem_singleton] at hq'
        rw [hq'] at ht
        exact absurd ht (List.not_mem_nil _)
    · rcases List.mem_append.mp hp' with h0 | h1
      · exact Or.inl (mem_allTracks.mpr ⟨p, h0, q, hq, ht⟩)
      · rw [List.mem_singleton.mp h1] at hq
        exact absurd hq (List.not_mem_nil _)
  · simp only [routeTrack, get_discography_create_some hd true, Option.getD_some] at h
    rcases ha : alookup (Track.get_album t) d.albums with _ | a
    · rw [get_album_create_none ha] at h
      simp only [Option.getD_some] at h
      rcases mem_allTracks.mp h with ⟨p, hp, q, hq, ht⟩
      rcases mem_dictSet hp with rfl | hp'
      · rcases mem_dictSet hq with rfl | hq'
        · rcases List.mem_append.mp ht with h0 | h1
          · exact absurd h0 (List.not_mem_nil _)
          · exact Or.inr (List.mem_singleton.mp h1)
        · rcases List.mem_append.mp hq' with h0 | h1
          · exact Or.inl (mem_allTracks.mpr ⟨_, alookup_mem hd, q, h0, ht⟩)
          · rw [List.mem_singleton.mp h1] at ht
            exact absurd ht (List.not_mem_nil _)
      · exact Or.inl (mem_allTracks.mpr ⟨p, hp', q, hq, ht⟩)
    · rw [get_album_create_some ha true] at h
      simp only [Option.getD_some] at h
      rcases mem_allTracks.mp h with ⟨p, hp, q, hq, ht⟩
      rcases mem_dictSet hp with rfl | hp'
      · rcases mem_dictSet hq with rfl | hq'
        · rcases List.mem_append.mp ht with h0 | h1
          · exact Or.inl (mem_allTracks.mpr ⟨_, alookup_mem hd, _, alookup_mem ha, h0⟩)
          · exact Or.inr (List.mem_singleton.mp h1)
        · exact Or.inl (mem_allTracks.mpr ⟨_, alookup_mem hd, q, hq', ht⟩)
      · exact Or.inl (mem_allTracks.mpr ⟨p, hp', q, hq, ht⟩)

/-- The routed track itself is always present afterwards. -/
theorem mem_route_self {t : Track} {lib : Library} :
    t ∈ allTracks (routeTrack lib t) := by
  rcases hd : alookup (Track.get_artist t) lib.discographies with _ | d
  · simp only [routeTrack, get_discography_create_none hd, Option.getD_some]
    rw [get_album_create_none (show alookup (Track.get_album t)
      (Discography.mk (Track.get_artist t) []).albums = none from rfl)]
    simp only [Option.getD_some]
    refine mem_allTracks.mpr ⟨_, self_mem_dictSet _ _ _, _, self_mem_dictSet _ _ _, ?_⟩
    simp [Album.add]
  · simp only [routeTrack, get_discography_create_some hd true, Option.getD_some]
    rcases ha : alookup (Track.get_album t) d.albums with _ | a
    · rw [get_album_create_none ha]
      simp only [Option.getD_some]
      refine mem_allTracks.mpr ⟨_, self_mem_dictSet _ _ _, _, self_mem_dictSet _ _ _, ?_⟩
      simp [Album.add]
    · rw [get_album_create_some ha true]
      simp only [Option.getD_some]
      refine mem_allTracks.mpr ⟨_, self_mem_dictSet _ _ _, _, self_mem_dictSet _ _ _, ?_⟩
      simp [Album.add]

/-- Tracks present after a directory's files are routed either were present
before or come from one of those files. -/
theorem mem_allTracks_loadDir {reader : Str → Option (List (Str × TagValue))}
    {parent : Str} {t' : Track} :
    ∀ {files : List Str} {lib : Library},
    t' ∈ allTracks (loadDir reader lib parent files) →
    t' ∈ allTracks lib ∨ ∃ f ∈ files, t' = mkTrack reader (pathJoin parent f) := by
  intro files
  induction files with
  | nil => intro lib h; exact Or.inl h
  | cons f rest ih =>
    intro lib h
    rw [loadDir] at h
    rcases ih h with h1 | ⟨g, hg, he⟩
    · rcases mem_allTracks_route h1 with h2 | h2
      · exact Or.inl h2
      · exact Or.inr ⟨f, List.mem_cons_self _ _, h2⟩
    · exact Or.inr ⟨g, List.mem_cons_of_mem _ hg, he⟩

/-- Tracks present after `load` either were present before or come from a
regex-matching file of some walked directory. -/
theorem mem_allTracks_load {reader : Str → Option (List (Str × TagValue))} {t' : Track} :
    ∀ {walk : List (Str × List Str)} {lib : Library},
    t' ∈ allTracks (Library.load reader lib walk) →
    t' ∈ allTracks lib
    ∨ ∃ e ∈ walk, ∃ f ∈ e.2, mediaMatch f = true ∧ t' = mkTrack reader (pathJoin e.1 f) := by
  intro walk
  induction walk with
  | nil => intro lib h; exact Or.inl h
  | cons e rest ih =>
    obtain ⟨parent, files⟩ := e
    intro lib h
    rw [Library.load] at h
    rcases ih h with h1 | ⟨e2, he2, f, hf, hm, heq⟩
    · rcases mem_allTracks_loadDir h1 with h2 | ⟨f, hf, he⟩
      · exact Or.inl h2
      · have hmf := List.mem_filter.mp hf
        exact Or.inr ⟨(parent, files), List.mem_cons_self _ _, f, hmf.1, hmf.2, he⟩
    · exact Or.inr ⟨e2, List.mem_cons_of_mem _ he2, f, hf, hm, heq⟩

/-- C6: every track of a freshly loaded library originates from a walked
file whose name matches `MEDIA_FILES_REGEX` (case-insensitive `.mp3`/`.ogg`
suffix); names with other extensions such as `.flac` or `.txt` never match
and so are never included. -/
theorem loaded_tracks_are_media :
    (∀ (reader : Str → Option (List (Str × TagValue))) (p0 : Str)
       (walk : List (Str × List Str)) (t : Track),
      t ∈ allTracks (Library.load reader (Library.init p0) walk) →
      ∃ e ∈ walk, ∃ f ∈ e.2, mediaMatch f = true ∧ t = mkTrack reader (pathJoin e.1 f))
    ∧ mediaMatch ("song.flac".data) = false
    ∧ mediaMatch ("notes.txt".data) = false
    ∧ mediaMatch ("a.MP3".data) = true
    ∧ mediaMatch ("b.Ogg".data) = true := by
  refine ⟨?_, by decide, by decide, by decide, by decide⟩
  intro reader p0 walk t h
  rcases mem_allTracks_load h with h1 | h2
  · exact absurd h1 (by simp [allTracks, Library.init])
  · exact h2

/-- Witness for C6 on a one-directory walk holding a single mp3 file. -/
theorem loaded_tracks_are_media_check :
    ∃ e ∈ [(("/m".data : Str), ["s.mp3".data])], ∃ f ∈ e.2, mediaMatch f = true
      ∧ mkTrack (fun _ => none) (pathJoin ("/m".data) ("s.mp3".data))
        = mkTrack (fun _ => none) (pathJoin e.1 f) :=
  loaded_tracks_are_media.1 (fun _ => none) ("/m".data)
    [(("/m".data), ["s.mp3".data])]
    (mkTrack (fun _ => none) (pathJoin ("/m".data) ("s.mp3".data)))
    (by decide)

/-- C8: a file whose tag header is unreadable (`reader = none`) still
produces a track — title derived from the extension-stripped filename, no
other metadata, hence `Unknown Artist` / `Unknown Album` and an empty track
number — and the scan still routes it into the library. -/
theorem no_header_fallback :
    ∀ (reader : Str → Option (List (Str × TagValue))) (d f : Str),
      reader (pathJoin d f) = none → mediaMatch f = true →
      (mkTrack reader (pathJoin d f)).metadata
          = [(("title".data), TagValue.single (basename (splitext (pathJoin d f)).1))]
      ∧ Track.get_title (mkTrack reader (pathJoin d f))
          = some (basename (splitext (pathJoin d f)).1)
      ∧ Track.get_artist (mkTrack reader (pathJoin d f)) = ("Unknown Artist".data)
      ∧ Track.get_album (mkTrack reader (pathJoin d f)) = ("Unknown Album".data)
      ∧ Track.get_track_number (mkTrack reader (pathJoin d f)) = []
      ∧ mkTrack reader (pathJoin d f)
          ∈ allTracks (Library.load reader (Library.init d) [(d, [f])]) := by
  intro reader d f hr hm
  have hmeta : (mkTrack reader (pathJoin d f)).metadata
      = [(("title".data), TagValue.single (basename (splitext (pathJoin d f)).1))] := by
    simp [mkTrack, hr]
  have halo : ∀ name : Str, name ≠ ("title".data) →
      alookup name (mkTrack reader (pathJoin d f)).metadata = none := by
    intro name hne
    rw [hmeta, alookup, if_neg (fun hh => hne hh.symm)]
    rfl
  have htitle : Track._get_metadata (mkTrack reader (pathJoin d f)) ("title".data)
      = some (basename (splitext (pathJoin d f)).1) := by
    rw [Track._get_metadata, hmeta, alookup, if_pos rfl]
  refine ⟨hmeta, ?_, ?_, ?_, ?_, ?_⟩
  · rw [Track.get_title, htitle]
  · simp [Track.get_artist, Track._get_metadata, pyOr,
      halo ("albumartist".data) (by decide), halo ("artist".data) (by decide)]
  · simp [Track.get_album, Track._get_metadata, pyOr, halo ("album".data) (by decide)]
  · simp [Track.get_track_number, Track._get_metadata, halo ("tracknumber".data) (by decide)]
  · have hload : Library.load reader (Library.init d) [(d, [f])]
        = routeTrack (Library.init d) (mkTrack reader (pathJoin d f)) := by
      simp [Library.load, loadDir, List.filter, hm]
    rw [hload]
    exact mem_route_self

/-- Witness for C8 at a concrete headerless file `/music/song.mp3`. -/
theorem no_header_fallback_check :
    (mkTrack (fun _ => none) (pathJoin ("/music".data) ("song.mp3".data))).metadata
        = [(("title".data),
            TagValue.single (basename (splitext (pathJoin ("/music".data) ("song.mp3".data))).1))]
    ∧ Track.get_title (mkTrack (fun _ => none) (pathJoin ("/music".data) ("song.mp3".data)))
        = some (basename (splitext (pathJoin ("/music".data) ("song.mp3".data))).1)
    ∧ Track.get_artist (mkTrack (fun _ => none) (pathJoin ("/music".data) ("song.mp3".data)))
        = ("Unknown Artist".data)
    ∧ Track.get_album (mkTrack (fun _ => none) (pathJoin ("/music".data) ("song.mp3".data)))
        = ("Unknown Album".data)
    ∧ Track.get_track_number (mkTrack (fun _ => none) (pathJoin ("/music".data) ("song.mp3".data)))
        = []
    ∧ mkTrack (fun _ => none) (pathJoin ("/music".data) ("song.mp3".data))
        ∈ allTracks (Library.load (fun _ => none) (Library.init ("/music".data))
            [(("/music".data), ["song.mp3".data])]) :=
  no_header_fallback (fun _ => none) ("/music".data) ("song.mp3".data) rfl (by decide)

/-- In dry-run mode a track export changes nothing and cannot fail. -/
theorem track_export_dry (mv : Bool) (fs : FS) (t : Track) (path : Str) :
    ∃ p, Track.export' ⟨true, mv⟩ fs t path = some (fs, p) :=
  ⟨_, rfl⟩

/-- In dry-run mode the track loop keeps the filesystem and reports one
destination path per track. -/
theorem exportTracks_dry (mv : Bool) (path : Str) :
    ∀ (ts : List Track) (fs : FS),
    ∃ ps, exportTracks ⟨true, mv⟩ path ts fs = some (fs, ps) ∧ ps.length = ts.length := by
  intro ts
  induction ts with
  | nil => intro fs; exact ⟨[], rfl, rfl⟩
  | cons t ts ih =>
    intro fs
    obtain ⟨p, hp⟩ := track_export_dry mv fs t path
    obtain ⟨ps, hps, hl⟩ := ih fs
    refine ⟨p :: ps, ?_, by simp [hl]⟩
    simp only [exportTracks, hp, hps]

/-- In dry-run mode an album export changes nothing and counts its tracks. -/
theorem album_export_dry (mv : Bool) (fs : FS) (a : Album) (path : Str) :
    ∃ ps, Album.export' ⟨true, mv⟩ fs a path = some (fs, ps) ∧ ps.length = a.tracks.length := by
  obtain ⟨ps, hps, hl⟩ := exportTracks_dry mv (pathJoin path a.name) a.tracks fs
  refine ⟨ps, ?_, hl⟩
  simp only [Album.export']
  simp [hps]

/-- In dry-run mode the album loop changes nothing. -/
theorem exportAlbums_dry (mv : Bool) (path : Str) :
    ∀ (l : List (Str × Album)) (fs : FS),
    ∃ ps, exportAlbums ⟨true, mv⟩ path l fs = some (fs, ps)
      ∧ ps.length = (l.flatMap (fun e => e.2.tracks)).length := by
  intro l
  induction l with
  | nil => intro fs; exact ⟨[], rfl, rfl⟩
  | cons e rest ih =>
    intro fs
    obtain ⟨ps1, hp1, hl1⟩ := album_export_dry mv fs e.2 path
    obtain ⟨ps, hps, hl⟩ := ih fs
    refine ⟨ps1 ++ ps, ?_, by simp [hl1, hl]⟩
    simp only [exportAlbums, hp1, hps]

/-- In dry-run mode a discography export changes nothing. -/
theorem discog_export_dry (mv : Bool) (fs : FS) (d : Discography) (path : Str) :
    ∃ ps, Discography.export' ⟨true, mv⟩ fs d path = some (fs, ps)
      ∧ ps.length = (d.albums.flatMap (fun e => e.2.tracks)).length := by
  obtain ⟨ps, hps, hl⟩ := exportAlbums_dry mv (pathJoin path d.artist) d.albums fs
  refine ⟨ps, ?_, hl⟩
  simp only [Discography.export']
  simp [hps]

/-- In dry-run mode the discography loop changes nothing. -/
theorem exportDiscogs_dry (mv : Bool) (path : Str) :
    ∀ (l : List (Str × Discography)) (fs : FS),
    ∃ ps, exportDiscogs ⟨true, mv⟩ path l fs = some (fs, ps)
      ∧ ps.length = (l.flatMap (fun p => p.2.albums.flatMap (fun q => q.2.tracks))).length := by
  intro l
  induction l with
  | nil => intro fs; exact ⟨[], rfl, rfl⟩
  | cons e rest ih =>
    intro fs
    obtain ⟨ps1, hp1, hl1⟩ := discog_export_dry mv fs e.2 path
    obtain ⟨ps, hps, hl⟩ := ih fs
    refine ⟨ps1 ++ ps, ?_, by simp [hl1, hl]⟩
    simp only [exportDiscogs, hp1, hps]

/-- C7: with the simulate flag set, a whole-library export performs zero
filesystem mutations (the resulting state is exactly the input state, for
any move-flag value), completes without error, and still traverses every
track of the loaded library (one reported destination path per track). -/
theorem simulate_mode_pure :
    ∀ (mv : Bool) (fs : FS) (lib : Library) (path : Str),
    ∃ ps, Library.export' ⟨true, mv⟩ fs lib path = some (fs, ps)
      ∧ ps.length = (allTracks lib).length := by
  intro mv fs lib path
  obtain ⟨ps, hps, hl⟩ := exportDiscogs_dry mv path lib.discographies fs
  refine ⟨ps, ?_, hl⟩
  simp only [Library.export']
  simp [hps]

/-- Tag reader for the collision scenario: two distinct source files with
identical artist/album/title tags and no track number. -/
def collisionReader : Str → Option (List (Str × TagValue)) := fun p =>
  if p = ("/src/a.mp3".data) ∨ p = ("/src/b.mp3".data) then
    some [(("artist".data), TagValue.multi [("A".data)]),
          (("album".data), TagValue.multi [("B".data)]),
          (("title".data), TagValue.multi [("Same Title".data)])]
  else none

/-- The library loaded from the two colliding files. -/
def collisionLib : Library :=
  Library.load collisionReader (Library.init ("/src".data))
    [(("/src".data), ["a.mp3".data, "b.mp3".data])]

/-- Initial filesystem for the collision scenario: the two source files
with distinct contents 1 and 2. -/
def collisionFS : FS :=
  { dirs := ["/src".data], files := [(("/src/a.mp3".data), 1), (("/src/b.mp3".data), 2)] }

/-- C1: the claim is false on the code — `Track.export` never checks
whether the destination exists, so both colliding tracks are written to the
same path (which, due to the `splitext` dot kept in `get_type`, is
`Same Title..mp3`, not `Same Title.mp3`): after the export neither
`Same Title.mp3` nor `Same Title (1).mp3` exists, the destination tree
holds exactly one file, and its content is the second track's — the first
copy was silently overwritten.  This contradicts `Library.export`'s own
docstring, which promises a parenthesized counter for conflicting tracks. -/
theorem export_collision_overwrites :
    (Library.export' ⟨false, false⟩ collisionFS collisionLib ("/dst".data)).map
      (fun r => (alookup ("/dst/A/B/Same Title.mp3".data) r.1.files,
                 alookup ("/dst/A/B/Same Title (1).mp3".data) r.1.files,
                 alookup ("/dst/A/B/Same Title..mp3".data) r.1.files,
                 (r.1.files.filter (fun e => ("/dst".data).isPrefixOf e.1)).length))
    = some (none, none, some 2, 1) := by
  decide

/-- Tag reader for the single-file copy scenario of C2. -/
def copyReader : Str → Option (List (Str × TagValue)) := fun p =>
  if p = ("/src/song1.mp3".data) then
    some [(("artist".data), TagValue.multi [("Foo".data)]),
          (("album".data), TagValue.multi [("Bar".data)]),
          (("title".data), TagValue.multi [("Baz".data)]),
          (("tracknumber".data), TagValue.multi [("3/12".data)])]
  else none

/-- The library loaded from `/src/song1.mp3`. -/
def copyLib : Library :=
  Library.load copyReader (Library.init ("/src".data)) [(("/src".data), ["song1.mp3".data])]

/-- Initial filesystem for the copy scenario. -/
def copyFS : FS :=
  { dirs := ["/src".data], files := [(("/src/song1.mp3".data), 7)] }

/-- C2: the claim is false on the code — exporting the tagged file
(artist=Foo, album=Bar, title=Baz, tracknumber=3/12) in copy mode produces
`/dst/Foo/Bar/3. Baz..mp3` (doubled dot, since `get_type` returns `".mp3"`
and the format string adds another dot), not the claimed
`/dst/Foo/Bar/3. Baz.mp3`; the source file does remain in place. -/
theorem copy_scenario_eval :
    (Library.export' ⟨false, false⟩ copyFS copyLib ("/dst".data)).map
      (fun r => (alookup ("/dst/Foo/Bar/3. Baz.mp3".data) r.1.files,
                 alookup ("/dst/Foo/Bar/3. Baz..mp3".data) r.1.files,
                 alookup ("/src/song1.mp3".data) r.1.files))
    = some (none, some 7, some 7) := by
  decide
